import Mathlib

/-!
Verification of the imports/exports dashboard (src/Dashboard.py).

The dashboard loads a CSV trade dataset, draws a fixed seeded sample,
lets the user filter and preview it, computes descriptive statistics,
and can export the currently filtered rows to a CSV file.

This file embeds the data model and the operations of Dashboard.py as
executable Lean definitions (a pandas DataFrame becomes a `List Record`;
boolean-mask selection becomes `List.filter`; `head(10)` becomes
`List.take 10`; fallible operations return `Option` or `Except`) and
proves the behavioural properties stated for them.
-/

/-- One trade transaction, the row type of the dataset (spec section 3).
The three numeric columns are modelled as integers. -/
structure Record where
  Country : String
  Product : String
  Import_Export : String
  Category : String
  Port : String
  Shipping_Method : String
  Supplier : String
  Customer : String
  Payment_Terms : String
  Quantity : Int
  Value : Int
  Weight : Int
deriving DecidableEq, Repr

/-- The guard of Dashboard.py line 38:
`if selected_countries or selected_product != "All"`. -/
def previewActive (cs : List String) (p : String) : Bool :=
  !cs.isEmpty || p != "All"

/-- The boolean mask of Dashboard.py lines 39-42:
`sample_df['Country'].isin(selected_countries) if selected_countries else True`
conjoined with
`sample_df['Product'] == selected_product if selected_product != "All" else True`. -/
def previewMask (cs : List String) (p : String) (r : Record) : Bool :=
  (if !cs.isEmpty then cs.contains r.Country else true) &&
  (if p != "All" then r.Product == p else true)

/-- Dashboard.py lines 38-45: the Data Preview page's filtered view.
When a constraint is active the rows are selected by the boolean mask
(row order preserved); otherwise the view is `sample_df.head(10)`. -/
def filtered_df (D : List Record) (cs : List String) (p : String) : List Record :=
  if previewActive cs p then D.filter (previewMask cs p) else D.take 10

/-- Dashboard.py lines 77-81: the Analysis page's filtered view, built by
applying the country constraint and then the import/export constraint. -/
def filtered_data (D : List Record) (c ie : String) : List Record :=
  let d1 := if c != "All" then D.filter (fun r => r.Country == c) else D
  if ie != "All" then d1.filter (fun r => r.Import_Export == ie) else d1

/-- The conjunction of the Analysis page's active constraints, written as a
single row predicate ("All" on a dimension means match-all). -/
def analysisMask (c ie : String) (r : Record) : Bool :=
  (if c != "All" then r.Country == c else true) &&
  (if ie != "All" then r.Import_Export == ie else true)

/-- Strict lexicographic comparison of character lists by code point, the
order in which pandas sorts string values. -/
def charListLt : List Char → List Char → Bool
  | [], [] => false
  | [], _ :: _ => true
  | _ :: _, [] => false
  | a :: as, b :: bs =>
    if a.toNat < b.toNat then true
    else if b.toNat < a.toNat then false
    else charListLt as bs

/-- Strict lexicographic comparison of strings by code point. -/
def strLt (a b : String) : Bool :=
  charListLt a.data b.data

/-- Number of occurrences of the value `v` in the column `xs`. -/
def freq (xs : List String) (v : String) : Nat :=
  (xs.filter (fun w => w == v)).length

/-- The maximum frequency attained by any value of the column. -/
def maxFreq (xs : List String) : Nat :=
  (xs.map (freq xs)).foldr max 0

/-- The values of the column attaining the maximum frequency, in row order
(with repetitions, which is harmless for taking a head or a minimum). -/
def tiedValues (xs : List String) : List String :=
  xs.filter (fun v => freq xs v == maxFreq xs)

/-- The embedding of pandas `column.mode()[0]` (Dashboard.py lines 69-70):
`Series.mode` returns the maximum-frequency values sorted in ascending
order, so indexing with `[0]` yields the least such value; on an empty
column the indexing fails, modelled as `none`. -/
def pandasModeZero (xs : List String) : Option String :=
  match tiedValues xs with
  | [] => none
  | v :: vs => some (vs.foldl (fun a b => if strLt b a then b else a) v)

/-- The mode with the tie-break rule stated by the spec: the first value in
original row order among the maximum-frequency set. Stated here only to be
compared with `pandasModeZero`, the embedding of the code. -/
def rowFirstMode (xs : List String) : Option String :=
  (tiedValues xs).head?

/-- pandas `Series.nunique`: the number of distinct values of a column. -/
def nunique (xs : List String) : Nat :=
  xs.dedup.length

/-- The five scalar metric cards of the Analysis page. -/
structure AnalysisMetrics where
  totalRecords : Nat
  uniqueProducts : Nat
  uniqueCountries : Nat
  topShipping : Option String
  topProduct : Option String
deriving DecidableEq, Repr

/-- Dashboard.py lines 66-70: the metric cards, computed from `sample_df`. -/
def analysisMetrics (D : List Record) : AnalysisMetrics :=
  ⟨D.length,
   nunique (D.map Record.Product),
   nunique (D.map Record.Country),
   pandasModeZero (D.map Record.Shipping_Method),
   pandasModeZero (D.map Record.Product)⟩

/-- Dashboard.py lines 61-81, the data-dependent part of the Analysis page:
the metric cards (computed from the whole sampled dataset, lines 66-70) and
the filtered view (lines 77-81) driven by the page's filter selections. -/
def analysisPage (D : List Record) (c ie : String) :
    AnalysisMetrics × List Record :=
  (analysisMetrics D, filtered_data D c ie)

/-- One row of the pandas `describe` table (Dashboard.py line 53), for one
numeric column. `none` models pandas's NaN marker. The standard deviation is
represented by its square, the sample variance with ddof = 1 (the pandas
default); the square root does not change which inputs give NaN, and keeping
the value rational keeps the definition executable. -/
structure ColStats where
  count : Nat
  mean : Option Rat
  std2 : Option Rat
  min : Option Rat
  q25 : Option Rat
  q50 : Option Rat
  q75 : Option Rat
  max : Option Rat
deriving DecidableEq, Repr

/-- Linear-interpolation quantile (the pandas/numpy default) of an already
sorted column; `none` on an empty column, matching pandas's NaN. -/
def quantileSorted (s : List Rat) (p : Rat) : Option Rat :=
  match s with
  | [] => none
  | _ :: _ =>
    let n := s.length
    let h : Rat := ((n : Rat) - 1) * p
    let lo : Nat := h.floor.toNat
    let hi : Nat := Nat.min (lo + 1) (n - 1)
    let x0 := s.getD lo 0
    let x1 := s.getD hi 0
    some (x0 + (h - (lo : Rat)) * (x1 - x0))

/-- pandas `Series.describe` for one numeric column: count, mean, standard
deviation (represented by the ddof = 1 sample variance, see `ColStats`),
min, quartiles and max. Statistics that pandas reports as NaN are `none`. -/
def describeColumn (xs : List Rat) : ColStats :=
  let n := xs.length
  let s := List.insertionSort (fun a b : Rat => a ≤ b) xs
  let mean : Option Rat := if n = 0 then none else some (xs.sum / (n : Rat))
  let std2 : Option Rat :=
    if n ≤ 1 then none
    else
      let m := xs.sum / (n : Rat)
      some ((xs.map (fun x => (x - m) ^ 2)).sum / ((n : Rat) - 1))
  ⟨n, mean, std2, s.head?, quantileSorted s (1/4), quantileSorted s (1/2),
   quantileSorted s (3/4), s.getLast?⟩

/-- Dashboard.py line 53:
`filtered_df[['Quantity', 'Value', 'Weight']].describe()`, one `ColStats`
per numeric column, in that column order. -/
def summary_df (rows : List Record) : ColStats × ColStats × ColStats :=
  (describeColumn (rows.map (fun r => (r.Quantity : Rat))),
   describeColumn (rows.map (fun r => (r.Value : Rat))),
   describeColumn (rows.map (fun r => (r.Weight : Rat))))

/-- The `describe` row pandas produces for a numeric column of an empty
frame: count 0 and NaN for every other statistic. -/
def emptyColStats : ColStats :=
  ⟨0, none, none, none, none, none, none, none⟩

/-- A step of a linear congruential generator, the pseudorandom source of
the model sampler `drawSample`. -/
def lcgNext (s : Nat) : Nat :=
  (1103515245 * s + 12345) % (2 ^ 31)

/-- Modelled from the spec: the "seeded pseudorandom sampling-without-
replacement algorithm" of the Dataset Loader (spec section 4.1). The code,
`pd.read_csv(file_path).sample(n=3001, random_state=55054)` (Dashboard.py
line 8), delegates the draw to library PRNG code that is not under src/, so
only its interface is modelled: a deterministic pure function of the seed
that repeatedly removes a pseudorandomly chosen remaining row. -/
def drawSample : Nat → Nat → List Record → List Record
  | _, 0, _ => []
  | _, Nat.succ _, [] => []
  | seed, Nat.succ k, q :: rest =>
    (q :: rest).getD (seed % (q :: rest).length) q ::
      drawSample (lcgNext seed) k
        ((q :: rest).eraseIdx (seed % (q :: rest).length))

/-- Modelled from the spec: the Dataset Loader (spec section 4.1). Drawing a
sample larger than the file's row count fails with `InsufficientDataError`
(pandas `sample` raises when `n` exceeds the population); otherwise the
seeded draw of exactly `n` rows is returned. -/
def sampleRows (rows : List Record) (n seed : Nat) : Except String (List Record) :=
  if rows.length < n then Except.error "InsufficientDataError"
  else Except.ok (drawSample seed n rows)

/-- Dashboard.py line 8: `sample_df`, the session dataset, drawn from the
source file with sample size 3001 and seed 55054. -/
def load_sample_df (rows : List Record) : Except String (List Record) :=
  sampleRows rows 3001 55054

/-- The decimal digit character of index `d` (meaningful for `d < 10`, the
only indices the printer produces), at code point 48 + d. -/
def digitChar (d : Nat) : Char :=
  Char.ofNat (48 + d % 10)

/-- The numeric value of a decimal digit character (code points 48-57),
`none` for every other character. -/
def digitVal (c : Char) : Option Nat :=
  if 48 ≤ c.toNat ∧ c.toNat ≤ 57 then some (c.toNat - 48) else none

/-- Digit-by-digit rendering of a positive natural number, with explicit
fuel so that the recursion is structural; `natPrint` supplies enough fuel.
Renders the empty list once the value (or the fuel) reaches zero. -/
def natPrintAux : Nat → Nat → List Char
  | 0, _ => []
  | Nat.succ f, n =>
    if n = 0 then [] else natPrintAux f (n / 10) ++ [digitChar (n % 10)]

/-- Decimal rendering of a natural number, most significant digit first. -/
def natPrint (n : Nat) : List Char :=
  if n = 0 then ['0'] else natPrintAux n n

/-- Parse a non-empty all-digit character list as a natural number. -/
def natParse (cs : List Char) : Option Nat :=
  if cs = [] then none
  else if cs.all (fun c => (digitVal c).isSome) then
    some (cs.foldl (fun acc c => acc * 10 + (digitVal c).getD 0) 0)
  else none

/-- Decimal rendering of an integer, as pandas writes an int64 cell. -/
def intPrint (i : Int) : List Char :=
  if i < 0 then '-' :: natPrint (-i).toNat else natPrint i.toNat

/-- Parse an optionally minus-signed decimal cell as an integer. -/
def intParse (cs : List Char) : Option Int :=
  match cs with
  | [] => none
  | c :: rest =>
    if c = '-' then Option.map (fun n : Nat => -(n : Int)) (natParse rest)
    else Option.map (fun n : Nat => (n : Int)) (natParse cs)

/-- The cells of one CSV data row, in the source dataset's column order. -/
def recordCells (r : Record) : List (List Char) :=
  [r.Country.data, r.Product.data, r.Import_Export.data, r.Category.data,
   r.Port.data, r.Shipping_Method.data, r.Supplier.data, r.Customer.data,
   r.Payment_Terms.data, intPrint r.Quantity, intPrint r.Value,
   intPrint r.Weight]

/-- The cells of the CSV header row. -/
def headerCells : List (List Char) :=
  ["Country".data, "Product".data, "Import_Export".data, "Category".data,
   "Port".data, "Shipping_Method".data, "Supplier".data, "Customer".data,
   "Payment_Terms".data, "Quantity".data, "Value".data, "Weight".data]

/-- One CSV line: the cells joined by commas. -/
def csvLine (cells : List (List Char)) : List Char :=
  [','].intercalate cells

/-- Modelled from the spec: the Export Sink's serialization
(`filtered_df.to_csv("Filtered_Data.csv", index=False)`, Dashboard.py
line 58, whose CSV-writing code is library code not under src/): a header
line followed by one line per row, lines joined by newlines. -/
def toCsv (rows : List Record) : List Char :=
  ['\n'].intercalate (csvLine headerCells :: rows.map (fun r => csvLine (recordCells r)))

/-- Rebuild a `Record` from the twelve cells of one CSV data line. -/
def parseRecord (cells : List (List Char)) : Option Record :=
  match cells with
  | [co, pr, ie, ca, po, sh, su, cu, pa, q, v, w] =>
    match intParse q, intParse v, intParse w with
    | some qi, some vi, some wi =>
      some ⟨String.mk co, String.mk pr, String.mk ie, String.mk ca,
            String.mk po, String.mk sh, String.mk su, String.mk cu,
            String.mk pa, qi, vi, wi⟩
    | _, _, _ => none
  | _ => none

/-- Parse the data lines of a CSV file; fails if any line is malformed. -/
def parseLines : List (List Char) → Option (List Record)
  | [] => some []
  | l :: ls =>
    match parseRecord (l.splitOn ','), parseLines ls with
    | some r, some rs => some (r :: rs)
    | _, _ => none

/-- Modelled from the spec: reloading an exported CSV file (the round-trip
of spec section 8 — the repository itself has no reload path). The text is
split into lines, the header is checked, and each data line is parsed. -/
def fromCsv (cs : List Char) : Option (List Record) :=
  match cs.splitOn '\n' with
  | [] => none
  | header :: body =>
    if header = csvLine headerCells then parseLines body else none

/-- A string is clean when it contains neither the cell separator nor the
line separator, so that it survives the unquoted CSV encoding. -/
def cleanStr (s : String) : Bool :=
  s.data.all (fun c => !(c == ',') && !(c == '\n'))

/-- A record is clean when all nine of its string fields are clean. -/
def cleanRecord (r : Record) : Bool :=
  cleanStr r.Country && cleanStr r.Product && cleanStr r.Import_Export &&
  cleanStr r.Category && cleanStr r.Port && cleanStr r.Shipping_Method &&
  cleanStr r.Supplier && cleanStr r.Customer && cleanStr r.Payment_Terms

/-- Dashboard.py lines 57-58: the text written to `Filtered_Data.csv` when
the save button is pressed on the Data Preview page — the serialization of
the page's currently filtered view. -/
def savedCsv (D : List Record) (cs : List String) (p : String) : List Char :=
  toCsv (filtered_df D cs p)

/-- Dashboard.py lines 57-59, the save action: one `to_csv` call whose
outcome is `writeResult`, followed by `st.success`. The first component
counts how many write attempts the code performs (the straight-line code
performs exactly one). There is no `try`/`except` around the call, so a
failing write propagates as the error value instead of being turned into
a success notice. -/
def saveFilteredData (writeResult : Except String Unit) :
    Nat × Except String String :=
  match writeResult with
  | Except.ok _ => (1, Except.ok "Filtered data saved as 'Filtered_Data.csv'")
  | Except.error e => (1, Except.error e)

/-- A sample record used by the concrete witnesses below. -/
def exRec1 : Record :=
  ⟨"USA", "Laptop", "Export", "Electronics", "Boston", "Air",
   "Acme", "Globex", "Net 30", 12, 3500, 18⟩

/-- A second sample record used by the concrete witnesses below. -/
def exRec2 : Record :=
  ⟨"India", "Chair", "Import", "Furniture", "Mumbai", "Sea",
   "Initech", "Umbrella", "Prepaid", 40, 900, 75⟩

/-! ### Order facts about the lexicographic comparison -/

theorem char_toNat_inj {a b : Char} (h : a.toNat = b.toNat) : a = b := by
  cases a; cases b
  simp only [Char.toNat] at h
  congr 1
  exact UInt32.toNat.inj h

theorem charListLt_irrefl : ∀ l : List Char, charListLt l l = false
  | [] => rfl
  | _ :: cs => by simp [charListLt, charListLt_irrefl cs]

theorem charListLt_trans : ∀ a b c : List Char,
    charListLt a b = true → charListLt b c = true → charListLt a c = true
  | [], [], _, hab, _ => by simp [charListLt] at hab
  | [], _ :: _, [], _, hbc => by simp [charListLt] at hbc
  | [], _ :: _, _ :: _, _, _ => rfl
  | _ :: _, [], _, hab, _ => by simp [charListLt] at hab
  | _ :: _, _ :: _, [], _, hbc => by simp [charListLt] at hbc
  | x :: xs, y :: ys, z :: zs, hab, hbc => by
    simp only [charListLt] at hab hbc ⊢
    rcases Nat.lt_trichotomy x.toNat y.toNat with h1 | h1 | h1 <;>
      rcases Nat.lt_trichotomy y.toNat z.toNat with h2 | h2 | h2
    · rw [if_pos (by omega)]
    · rw [if_pos (by omega)]
    · rw [if_neg (by omega), if_pos (by omega)] at hbc
      exact absurd hbc (by simp)
    · rw [if_pos (by omega)]
    · rw [if_neg (by omega), if_neg (by omega)] at hab
      rw [if_neg (by omega), if_neg (by omega)] at hbc
      rw [if_neg (by omega), if_neg (by omega)]
      exact charListLt_trans xs ys zs hab hbc
    · rw [if_neg (by omega), if_pos (by omega)] at hbc
      exact absurd hbc (by simp)
    · rw [if_neg (by omega), if_pos (by omega)] at hab
      exact absurd hab (by simp)
    · rw [if_neg (by omega), if_pos (by omega)] at hab
      exact absurd hab (by simp)
    · rw [if_neg (by omega), if_pos (by omega)] at hab
      exact absurd hab (by simp)

theorem charListLt_conn : ∀ a b : List Char,
    charListLt a b = false → charListLt b a = false → a = b
  | [], [], _, _ => rfl
  | [], _ :: _, h, _ => by simp [charListLt] at h
  | _ :: _, [], _, h => by simp [charListLt] at h
  | x :: xs, y :: ys, h1, h2 => by
    simp only [charListLt] at h1 h2
    rcases Nat.lt_trichotomy x.toNat y.toNat with h | h | h
    · simp [h] at h1
    · have hx : x = y := char_toNat_inj h
      subst hx
      simp only [Nat.lt_irrefl, if_false, if_neg] at h1 h2
      rw [charListLt_conn xs ys h1 h2]
    · simp [h] at h2

theorem strLt_irrefl (a : String) : strLt a a = false :=
  charListLt_irrefl a.data

theorem strLt_trans {a b c : String} (h1 : strLt a b = true)
    (h2 : strLt b c = true) : strLt a c = true :=
  charListLt_trans a.data b.data c.data h1 h2

theorem strLt_conn {a b : String} (h1 : strLt a b = false)
    (h2 : strLt b a = false) : a = b := by
  have h := charListLt_conn a.data b.data h1 h2
  cases a; cases b
  congr 1

/-! ### The left fold computing the least element of a list of strings -/

theorem foldlMin_mem : ∀ (l : List String) (a : String),
    l.foldl (fun a b => if strLt b a then b else a) a ∈ a :: l
  | [], a => by simp
  | b :: t, a => by
    have ih := foldlMin_mem t (if strLt b a then b else a)
    simp only [List.foldl_cons]
    rcases List.mem_cons.mp ih with h | h
    · rw [h]
      split
      · exact List.mem_cons_of_mem _ (List.mem_cons_self _ _)
      · exact List.mem_cons_self _ _
    · exact List.mem_cons_of_mem _ (List.mem_cons_of_mem _ h)

theorem strLt_asymm {a b : String} (h : strLt a b = true) : strLt b a = false := by
  by_cases h2 : strLt b a = true
  · have := strLt_trans h h2
    rw [strLt_irrefl] at this
    exact absurd this (by simp)
  · simpa using h2

theorem strLt_false_trans {x y z : String} (h1 : strLt x y = false)
    (h2 : strLt y z = false) : strLt x z = false := by
  by_cases hxz : strLt x z = true
  · by_cases hyx : strLt y x = true
    · have := strLt_trans hyx hxz
      rw [this] at h2
      exact absurd h2 (by simp)
    · have hyx2 : strLt y x = false := by simpa using hyx
      have hxy : x = y := strLt_conn h1 hyx2
      rw [hxy] at hxz
      rw [hxz] at h2
      exact absurd h2 (by simp)
  · simpa using hxz

theorem foldlMin_not_lt : ∀ (l : List String) (a b : String), b ∈ a :: l →
    strLt b (l.foldl (fun a b => if strLt b a then b else a) a) = false
  | [], a, b, hb => by
    have hba : b = a := by simpa using hb
    rw [hba]
    exact strLt_irrefl a
  | c :: t, a, b, hb => by
    simp only [List.foldl_cons]
    by_cases hca : strLt c a = true
    · rw [if_pos hca]
      have hrec := fun x hx => foldlMin_not_lt t c x hx
      rcases List.mem_cons.mp hb with h1 | h1
      · rw [h1]
        exact strLt_false_trans (strLt_asymm hca) (hrec c (List.mem_cons_self _ _))
      · exact hrec b h1
    · have hca2 : strLt c a = false := by simpa using hca
      rw [if_neg hca]
      have hrec := fun x hx => foldlMin_not_lt t a x hx
      rcases List.mem_cons.mp hb with h1 | h1
      · rw [h1]
        exact hrec a (List.mem_cons_self _ _)
      · rcases List.mem_cons.mp h1 with h2 | h2
        · rw [h2]
          exact strLt_false_trans hca2 (hrec a (List.mem_cons_self _ _))
        · exact hrec b (List.mem_cons_of_mem _ h2)

/-! ### Frequency and mode -/

theorem le_foldr_max (l : List Nat) (a : Nat) (h : a ∈ l) :
    a ≤ l.foldr max 0 := by
  induction l with
  | nil => cases h
  | cons b t ih =>
    rcases List.mem_cons.mp h with rfl | h2
    · exact Nat.le_max_left _ _
    · exact Nat.le_trans (ih h2) (Nat.le_max_right _ _)

theorem foldr_max_mem (l : List Nat) :
    l.foldr max 0 ∈ l ∨ l.foldr max 0 = 0 := by
  induction l with
  | nil => right; rfl
  | cons a t ih =>
    simp only [List.foldr_cons]
    rcases Nat.le_total a (t.foldr max 0) with h | h
    · rw [Nat.max_eq_right h]
      rcases ih with h2 | h2
      · left; exact List.mem_cons_of_mem _ h2
      · rw [h2]
        have : a = 0 := Nat.le_zero.mp (h2 ▸ h)
        left; rw [← this]; exact List.mem_cons_self _ _
    · rw [Nat.max_eq_left h]
      left; exact List.mem_cons_self _ _

theorem le_maxFreq (xs : List String) (v : String) (h : v ∈ xs) :
    freq xs v ≤ maxFreq xs :=
  le_foldr_max _ _ (List.mem_map_of_mem (freq xs) h)

theorem freq_pos (xs : List String) (v : String) (h : v ∈ xs) :
    0 < freq xs v := by
  unfold freq
  have : v ∈ xs.filter (fun w => w == v) :=
    List.mem_filter.mpr ⟨h, by simp⟩
  exact List.length_pos.mpr (List.ne_nil_of_mem this)

theorem maxFreq_attained (xs : List String) (h : xs ≠ []) :
    ∃ v ∈ xs, freq xs v = maxFreq xs := by
  obtain ⟨v0, t, rfl⟩ := List.exists_cons_of_ne_nil h
  have hpos : 0 < freq (v0 :: t) v0 := freq_pos _ _ (List.mem_cons_self _ _)
  have hle : freq (v0 :: t) v0 ≤ maxFreq (v0 :: t) :=
    le_maxFreq _ _ (List.mem_cons_self _ _)
  rcases foldr_max_mem ((v0 :: t).map (freq (v0 :: t))) with hm | hm
  · obtain ⟨v, hv, he⟩ := List.mem_map.mp hm
    exact ⟨v, hv, he⟩
  · exact absurd hm (by unfold maxFreq at hle; omega)

theorem tiedValues_ne_nil (xs : List String) (h : xs ≠ []) :
    tiedValues xs ≠ [] := by
  obtain ⟨v, hv, he⟩ := maxFreq_attained xs h
  exact List.ne_nil_of_mem
    (List.mem_filter.mpr ⟨hv, by simp [he]⟩)

/-! ### Filter-engine facts -/

theorem filtered_data_eq_filter (D : List Record) (c ie : String) :
    filtered_data D c ie = D.filter (analysisMask c ie) := by
  unfold filtered_data analysisMask
  by_cases hc : (c != "All") = true <;> by_cases hie : (ie != "All") = true <;>
    simp only [hc, hie, if_true, if_false, Bool.not_eq_true, if_neg,
      Bool.and_true, Bool.true_and, List.filter_filter, List.filter_true] <;>
    first
      | rfl
      | (exact List.filter_congr fun r _ => Bool.and_comm _ _)

/-! ### Facts about the model sampler -/

theorem drawSample_length : ∀ (n seed : Nat) (pool : List Record),
    n ≤ pool.length → (drawSample seed n pool).length = n
  | 0, _, _, _ => rfl
  | Nat.succ _, _, [], h => by simp at h
  | Nat.succ k, seed, q :: rest, h => by
    have hi : seed % (q :: rest).length < (q :: rest).length :=
      Nat.mod_lt _ (by simp)
    have herase : ((q :: rest).eraseIdx (seed % (q :: rest).length)).length
        = rest.length := by
      rw [List.length_eraseIdx, if_pos hi]
      simp
    have hk : k ≤ rest.length := by
      have := h
      simp only [List.length_cons] at this
      omega
    have ih := drawSample_length k (lcgNext seed)
      ((q :: rest).eraseIdx (seed % (q :: rest).length)) (by omega)
    rw [drawSample, List.length_cons, ih]

theorem drawSample_mem : ∀ (n seed : Nat) (pool : List Record) (r : Record),
    r ∈ drawSample seed n pool → r ∈ pool
  | 0, _, _, _, h => by simp [drawSample] at h
  | Nat.succ _, _, [], _, h => by simp [drawSample] at h
  | Nat.succ k, seed, q :: rest, r, h => by
    rw [drawSample] at h
    have hi : seed % (q :: rest).length < (q :: rest).length :=
      Nat.mod_lt _ (by simp)
    rcases List.mem_cons.mp h with h1 | h1
    · rw [h1]
      simp only [List.getD_eq_getElem?_getD, List.getElem?_eq_getElem hi,
        Option.getD_some]
      exact List.getElem_mem hi
    · exact List.mem_of_mem_eraseIdx
        (drawSample_mem k (lcgNext seed) _ r h1)

/-! ### The claims -/

/-- C1: for every dataset and every filter predicate (country set and
product for the Data Preview filter, country and import/export choice for
the Analysis filter), the filter output is exactly the ordered subsequence
of the dataset whose rows satisfy every active constraint, and it preserves
the dataset's original row order; the Data Preview equation is stated for
the predicates with at least one active constraint (the inactive case is
the distinct first-10 default view, claim C2). -/
theorem claim_filter_exact_and_stable (D : List Record) (cs : List String)
    (p c ie : String) :
    List.Sublist (filtered_df D cs p) D ∧
    List.Sublist (filtered_data D c ie) D ∧
    (cs ≠ [] ∨ p ≠ "All" →
      filtered_df D cs p = D.filter (previewMask cs p)) ∧
    filtered_data D c ie = D.filter (analysisMask c ie) := by
  have hact : ∀ hh : cs ≠ [] ∨ p ≠ "All", previewActive cs p = true := by
    intro hh
    unfold previewActive
    rcases hh with h | h
    · have hne : cs.isEmpty = false := by
        simpa [List.isEmpty_iff] using h
      simp [hne]
    · have hne : (p != "All") = true := bne_iff_ne.mpr h
      simp [hne]
  refine ⟨?_, ?_, ?_, filtered_data_eq_filter D c ie⟩
  · unfold filtered_df
    split
    · exact List.filter_sublist D
    · exact List.take_sublist 10 D
  · rw [filtered_data_eq_filter]
    exact List.filter_sublist D
  · intro hh
    unfold filtered_df
    rw [if_pos (hact hh)]

/-- Witness for C1 at a concrete dataset and predicate, discharging the
active-constraint hypothesis of the exactness part. -/
theorem claim_filter_exact_and_stable_witness :
    List.Sublist (filtered_df [exRec1, exRec2] ["USA"] "All")
      [exRec1, exRec2] ∧
    filtered_df [exRec1, exRec2] ["USA"] "All" =
      List.filter (previewMask ["USA"] "All") [exRec1, exRec2] ∧
    filtered_data [exRec1, exRec2] "All" "Export" =
      List.filter (analysisMask "All" "Export") [exRec1, exRec2] :=
  ⟨(claim_filter_exact_and_stable [exRec1, exRec2] ["USA"] "All"
      "All" "Export").1,
   (claim_filter_exact_and_stable [exRec1, exRec2] ["USA"] "All"
      "All" "Export").2.2.1 (Or.inl (by decide)),
   (claim_filter_exact_and_stable [exRec1, exRec2] ["USA"] "All"
      "All" "Export").2.2.2⟩

/-- C2: when no filter predicate is active (empty country set, product
"All") the Data Preview filter returns exactly the first ten records of
the dataset, which is not all of the dataset whenever it has more than ten
rows. -/
theorem claim_empty_predicate_first_ten (D : List Record) (h : 10 < D.length) :
    filtered_df D [] "All" = D.take 10 ∧ filtered_df D [] "All" ≠ D := by
  have he : filtered_df D [] "All" = D.take 10 := by
    unfold filtered_df
    rw [if_neg (by decide)]
  refine ⟨he, ?_⟩
  intro hd
  rw [he] at hd
  have hlen := congrArg List.length hd
  rw [List.length_take] at hlen
  simp only [Nat.min_def] at hlen
  split at hlen <;> omega

/-- Witness for C2 on an eleven-row dataset. -/
theorem claim_empty_predicate_first_ten_witness :
    10 < (List.replicate 11 exRec1).length ∧
    (filtered_df (List.replicate 11 exRec1) [] "All" =
        (List.replicate 11 exRec1).take 10 ∧
      filtered_df (List.replicate 11 exRec1) [] "All" ≠
        List.replicate 11 exRec1) :=
  ⟨by rw [List.length_replicate]; omega,
   claim_empty_predicate_first_ten _ (by rw [List.length_replicate]; omega)⟩

/-- C3 counterexample: on the column ["b", "a"] both values are tied at
frequency one; the row-order-first tied value is "b", but the code's mode
(`.mode()[0]`, which indexes pandas's sorted mode list) evaluates to "a",
so the tie is not resolved to the row-order-first candidate. -/
theorem claim_mode_counterexample :
    rowFirstMode ["b", "a"] = some "b" ∧
    pandasModeZero ["b", "a"] = some "a" ∧
    pandasModeZero ["b", "a"] ≠ rowFirstMode ["b", "a"] := by decide

/-- C3 (amended): on every non-empty column the mode is deterministic —
repeated calls on the same input return the same value — and when several
values share the maximum frequency the result is the least tied value in
sorted (code-point lexicographic) order, not the row-order-first one. -/
theorem claim_mode_deterministic_min_tie (xs : List String) (h : xs ≠ []) :
    ∃ m, pandasModeZero xs = some m ∧ m ∈ xs ∧ freq xs m = maxFreq xs ∧
      (∀ v ∈ xs, freq xs v = maxFreq xs → strLt v m = false) ∧
      ∀ ys, ys = xs → pandasModeZero ys = some m := by
  rcases htv : tiedValues xs with _ | ⟨v, vs⟩
  · exact absurd htv (tiedValues_ne_nil xs h)
  · refine ⟨vs.foldl (fun a b => if strLt b a then b else a) v, ?_, ?_, ?_, ?_, ?_⟩
    · unfold pandasModeZero
      rw [htv]
    · have hm := foldlMin_mem vs v
      rw [← htv] at hm
      exact (List.mem_filter.mp hm).1
    · have hm := foldlMin_mem vs v
      rw [← htv] at hm
      exact eq_of_beq (List.mem_filter.mp hm).2
    · intro w hw hfw
      have hwt : w ∈ tiedValues xs :=
        List.mem_filter.mpr ⟨hw, by rw [hfw]; exact beq_self_eq_true _⟩
      rw [htv] at hwt
      exact foldlMin_not_lt vs v w hwt
    · intro ys hy
      rw [hy]
      unfold pandasModeZero
      rw [htv]

/-- Witness for C3's amended theorem on a concrete tied column. -/
theorem claim_mode_deterministic_min_tie_witness :
    (["b", "a"] : List String) ≠ [] ∧
    ∃ m, pandasModeZero ["b", "a"] = some m ∧ m ∈ ["b", "a"] ∧
      freq ["b", "a"] m = maxFreq ["b", "a"] ∧
      (∀ v ∈ ["b", "a"], freq ["b", "a"] v = maxFreq ["b", "a"] →
        strLt v m = false) ∧
      ∀ ys, ys = ["b", "a"] → pandasModeZero ys = some m :=
  ⟨by decide, claim_mode_deterministic_min_tie ["b", "a"] (by decide)⟩

/-- C4: `describe` over the empty row subsequence gives, for each of the
numeric columns Quantity, Value and Weight, count zero and the
NaN-equivalent marker (`none`) for every other statistic; the operation is
a total function, so no exception is raised. -/
theorem claim_describe_empty :
    summary_df [] = (emptyColStats, emptyColStats, emptyColStats) := by decide

/-- C5: drawing a sample of size greater than the source file's row count
fails with InsufficientDataError. -/
theorem claim_sample_too_large (rows : List Record) (n seed : Nat)
    (h : rows.length < n) :
    sampleRows rows n seed = Except.error "InsufficientDataError" := by
  unfold sampleRows
  rw [if_pos h]

/-- Witness for C5: sampling 3001 rows from a 2000-row file fails. -/
theorem claim_sample_too_large_witness :
    (List.replicate 2000 exRec1).length < 3001 ∧
    sampleRows (List.replicate 2000 exRec1) 3001 55054 =
      Except.error "InsufficientDataError" :=
  ⟨by rw [List.length_replicate]; omega,
   claim_sample_too_large _ _ 55054 (by rw [List.length_replicate]; omega)⟩

/-- C6: sampling is deterministic — loading equal source files with the
same seed and sample size yields identical sampled datasets (same rows in
the same order) — and a successful sample has exactly the requested size
and contains only rows of the source file. -/
theorem claim_sampling_deterministic (rows₁ rows₂ : List Record)
    (n seed : Nat) (h : rows₁ = rows₂) :
    sampleRows rows₁ n seed = sampleRows rows₂ n seed ∧
    (n ≤ rows₁.length →
      ∃ s, sampleRows rows₁ n seed = Except.ok s ∧ s.length = n ∧
        ∀ r ∈ s, r ∈ rows₁) := by
  subst h
  refine ⟨rfl, fun hn => ⟨drawSample seed n rows₁, ?_,
    drawSample_length n seed rows₁ hn,
    fun r hr => drawSample_mem n seed rows₁ r hr⟩⟩
  unfold sampleRows
  rw [if_neg (by omega)]

/-- Witness for C6 on a concrete two-row file. -/
theorem claim_sampling_deterministic_witness :
    ([exRec1, exRec2] : List Record) = [exRec1, exRec2] ∧
    (sampleRows [exRec1, exRec2] 1 55054 =
        sampleRows [exRec1, exRec2] 1 55054 ∧
      (1 ≤ ([exRec1, exRec2] : List Record).length →
        ∃ s, sampleRows [exRec1, exRec2] 1 55054 = Except.ok s ∧
          s.length = 1 ∧ ∀ r ∈ s, r ∈ [exRec1, exRec2])) :=
  ⟨rfl, claim_sampling_deterministic [exRec1, exRec2] [exRec1, exRec2]
    1 55054 rfl⟩

/-- C8 counterexample: when the underlying write fails, the save action's
outcome is the error itself — the code has no handler at the point of use,
so the failure is not reported as a success notice. -/
theorem claim_export_error_counterexample :
    (saveFilteredData (Except.error "disk full")).2 =
      Except.error "disk full" ∧
    (saveFilteredData (Except.error "disk full")).2 ≠
      Except.ok "Filtered data saved as 'Filtered_Data.csv'" :=
  ⟨rfl, fun h => Except.noConfusion h⟩

/-- C8 (amended): the save action performs exactly one write attempt (the
export is not retried); a failing write propagates its error unchanged out
of the save action — nothing in this code catches it — and a successful
write produces the success notice. -/
theorem claim_export_error_propagates (w : Except String Unit) :
    (saveFilteredData w).1 = 1 ∧
    (∀ e, w = Except.error e → (saveFilteredData w).2 = Except.error e) ∧
    (w = Except.ok () → (saveFilteredData w).2 =
      Except.ok "Filtered data saved as 'Filtered_Data.csv'") := by
  cases w <;> simp [saveFilteredData]

/-- Witness for C8's amended theorem at a concrete failing write. -/
theorem claim_export_error_propagates_witness :
    (saveFilteredData (Except.error "io failure")).1 = 1 ∧
    (saveFilteredData (Except.error "io failure")).2 =
      Except.error "io failure" :=
  ⟨(claim_export_error_propagates (Except.error "io failure")).1,
   (claim_export_error_propagates (Except.error "io failure")).2.1
     "io failure" rfl⟩

/-- C9: the five scalar metric cards of the Analysis page are computed
over the whole sampled dataset and are unchanged by any analysis-page
filter selection. -/
theorem claim_metrics_unaffected_by_filters (D : List Record)
    (c ie c₂ ie₂ : String) :
    (analysisPage D c ie).1 = (analysisPage D c₂ ie₂).1 ∧
    (analysisPage D c ie).1 = analysisMetrics D :=
  ⟨rfl, rfl⟩

/-! ### Digit printing and parsing -/

theorem digitVal_digitChar (d : Nat) (h : d < 10) :
    digitVal (digitChar d) = some d := by
  interval_cases d <;> rfl

theorem digit_ne_special {c : Char} (h : (digitVal c).isSome = true) :
    c ≠ ',' ∧ c ≠ '\n' ∧ c ≠ '-' := by
  refine ⟨?_, ?_, ?_⟩ <;> intro he <;> rw [he] at h <;>
    exact absurd h (by decide)

theorem natPrintAux_digits : ∀ (f n : Nat), ∀ c ∈ natPrintAux f n,
    (digitVal c).isSome = true
  | 0, n => by simp [natPrintAux]
  | Nat.succ f, n => by
    by_cases hn : n = 0
    · simp [natPrintAux, hn]
    · intro c hc
      rw [natPrintAux, if_neg hn] at hc
      rcases List.mem_append.mp hc with h1 | h1
      · exact natPrintAux_digits f (n / 10) c h1
      · have hce : c = digitChar (n % 10) := by simpa using h1
        rw [hce, digitVal_digitChar (n % 10) (Nat.mod_lt _ (by omega))]
        rfl

theorem natPrint_digits (n : Nat) : ∀ c ∈ natPrint n,
    (digitVal c).isSome = true := by
  intro c hc
  unfold natPrint at hc
  by_cases hn : n = 0
  · rw [if_pos hn] at hc
    have : c = '0' := by simpa using hc
    rw [this]
    rfl
  · rw [if_neg hn] at hc
    exact natPrintAux_digits n n c hc

theorem natPrintAux_ne_nil (f n : Nat) (hf : f ≠ 0) (hn : n ≠ 0) :
    natPrintAux f n ≠ [] := by
  cases f with
  | zero => exact absurd rfl hf
  | succ k =>
    rw [natPrintAux, if_neg hn]
    simp

theorem natPrint_ne_nil (n : Nat) : natPrint n ≠ [] := by
  unfold natPrint
  by_cases hn : n = 0
  · rw [if_pos hn]
    simp
  · rw [if_neg hn]
    exact natPrintAux_ne_nil n n hn hn

theorem natPrintAux_foldl : ∀ (f n acc : Nat), n ≤ f →
    (natPrintAux f n).foldl (fun acc c => acc * 10 + (digitVal c).getD 0) acc
      = acc * 10 ^ (natPrintAux f n).length + n
  | 0, n, acc, h => by
    have hn : n = 0 := by omega
    simp [natPrintAux, hn]
  | Nat.succ f, n, acc, h => by
    by_cases hn : n = 0
    · simp [natPrintAux, hn]
    · rw [natPrintAux, if_neg hn, List.foldl_append]
      have hdiv : n / 10 ≤ f := by
        have := Nat.div_lt_self (Nat.pos_of_ne_zero hn)
          (show 1 < 10 by omega)
        omega
      rw [natPrintAux_foldl f (n / 10) acc hdiv]
      simp only [List.foldl_cons, List.foldl_nil]
      rw [digitVal_digitChar (n % 10) (Nat.mod_lt _ (by omega))]
      simp only [Option.getD_some, List.length_append, List.length_cons,
        List.length_nil]
      have hmod := Nat.div_add_mod n 10
      calc (acc * 10 ^ (natPrintAux f (n / 10)).length + n / 10) * 10 + n % 10
          = acc * (10 ^ (natPrintAux f (n / 10)).length * 10)
              + (10 * (n / 10) + n % 10) := by ring
        _ = acc * 10 ^ ((natPrintAux f (n / 10)).length + 0 + 1) + n := by
              rw [hmod, pow_succ]

theorem natParse_natPrint (n : Nat) : natParse (natPrint n) = some n := by
  by_cases hn : n = 0
  · rw [hn]
    decide
  · unfold natParse
    rw [if_neg (natPrint_ne_nil n)]
    have hall : (natPrint n).all (fun c => (digitVal c).isSome) = true := by
      rw [List.all_eq_true]
      exact natPrint_digits n
    rw [if_pos hall]
    congr 1
    conv in natPrint n => rw [natPrint, if_neg hn]
    rw [natPrintAux_foldl n n 0 (Nat.le_refl n)]
    simp

theorem intPrint_chars {i : Int} {c : Char} (hc : c ∈ intPrint i) :
    c = '-' ∨ (digitVal c).isSome = true := by
  unfold intPrint at hc
  split at hc
  · rcases List.mem_cons.mp hc with h | h
    · exact Or.inl h
    · exact Or.inr (natPrint_digits _ c h)
  · exact Or.inr (natPrint_digits _ c hc)

theorem intPrint_no_comma (i : Int) : ',' ∉ intPrint i := by
  intro hm
  rcases intPrint_chars hm with h | h
  · exact absurd h (by decide)
  · exact absurd h (by decide)

theorem intPrint_no_newline (i : Int) : '\n' ∉ intPrint i := by
  intro hm
  rcases intPrint_chars hm with h | h
  · exact absurd h (by decide)
  · exact absurd h (by decide)

theorem intParse_intPrint (i : Int) : intParse (intPrint i) = some i := by
  by_cases hi : i < 0
  · unfold intPrint
    rw [if_pos hi]
    show (if ('-' : Char) = '-'
        then Option.map (fun n : Nat => -(n : Int)) (natParse (natPrint (-i).toNat))
        else Option.map (fun n : Nat => (n : Int))
          (natParse ('-' :: natPrint (-i).toNat))) = some i
    rw [if_pos rfl, natParse_natPrint]
    show some (-((-i).toNat : Int)) = some i
    congr 1
    omega
  · unfold intPrint
    rw [if_neg hi]
    rcases hne : natPrint i.toNat with _ | ⟨c, rest⟩
    · exact absurd hne (natPrint_ne_nil i.toNat)
    · have hcd : c ≠ '-' :=
        (digit_ne_special (natPrint_digits i.toNat c
          (by rw [hne]; exact List.mem_cons_self _ _))).2.2
      show (if c = '-'
          then Option.map (fun n : Nat => -(n : Int)) (natParse rest)
          else Option.map (fun n : Nat => (n : Int)) (natParse (c :: rest)))
        = some i
      rw [if_neg hcd, ← hne, natParse_natPrint]
      show some ((i.toNat : Int)) = some i
      congr 1
      omega

/-! ### CSV lines -/

theorem mem_intersperse {α : Type} {sep w : α} : ∀ (ls : List α),
    w ∈ ls.intersperse sep → w = sep ∨ w ∈ ls
  | [], h => by simp at h
  | [a], h => by
    rw [List.intersperse_singleton] at h
    exact Or.inr h
  | a :: b :: t, h => by
    rw [List.intersperse_cons_cons] at h
    rcases List.mem_cons.mp h with rfl | h1
    · exact Or.inr (List.mem_cons_self _ _)
    · rcases List.mem_cons.mp h1 with rfl | h2
      · exact Or.inl rfl
      · rcases mem_intersperse (b :: t) h2 with h3 | h3
        · exact Or.inl h3
        · exact Or.inr (List.mem_cons_of_mem _ h3)

theorem mem_intercalate_single {x c : Char} (ls : List (List Char))
    (h : c ∈ [x].intercalate ls) : c = x ∨ ∃ l ∈ ls, c ∈ l := by
  unfold List.intercalate at h
  rw [List.mem_flatten] at h
  obtain ⟨w, hw, hcw⟩ := h
  rcases mem_intersperse ls hw with h1 | h1
  · rw [h1] at hcw
    exact Or.inl (by simpa using hcw)
  · exact Or.inr ⟨w, h1, hcw⟩

theorem intercalate_single_not_mem {x c : Char} (hne : c ≠ x)
    (ls : List (List Char)) (hl : ∀ l ∈ ls, c ∉ l) :
    c ∉ [x].intercalate ls := by
  intro h
  rcases mem_intercalate_single ls h with h1 | ⟨l, hml, hcl⟩
  · exact hne h1
  · exact hl l hml hcl

theorem cleanStr_no_sep {s : String} (h : cleanStr s = true) :
    ',' ∉ s.data ∧ '\n' ∉ s.data := by
  unfold cleanStr at h
  rw [List.all_eq_true] at h
  constructor <;> intro hm
  · exact absurd (h _ hm) (by decide)
  · exact absurd (h _ hm) (by decide)

theorem recordCells_no_comma {r : Record} (h : cleanRecord r = true) :
    ∀ cell ∈ recordCells r, ',' ∉ cell := by
  unfold cleanRecord at h
  simp only [Bool.and_eq_true] at h
  obtain ⟨⟨⟨⟨⟨⟨⟨⟨h1, h2⟩, h3⟩, h4⟩, h5⟩, h6⟩, h7⟩, h8⟩, h9⟩ := h
  intro cell hcell
  simp only [recordCells, List.mem_cons, List.not_mem_nil, or_false] at hcell
  rcases hcell with rfl | rfl | rfl | rfl | rfl | rfl | rfl | rfl | rfl
    | rfl | rfl | rfl
  · exact (cleanStr_no_sep h1).1
  · exact (cleanStr_no_sep h2).1
  · exact (cleanStr_no_sep h3).1
  · exact (cleanStr_no_sep h4).1
  · exact (cleanStr_no_sep h5).1
  · exact (cleanStr_no_sep h6).1
  · exact (cleanStr_no_sep h7).1
  · exact (cleanStr_no_sep h8).1
  · exact (cleanStr_no_sep h9).1
  · exact intPrint_no_comma _
  · exact intPrint_no_comma _
  · exact intPrint_no_comma _

theorem recordCells_no_newline {r : Record} (h : cleanRecord r = true) :
    ∀ cell ∈ recordCells r, '\n' ∉ cell := by
  unfold cleanRecord at h
  simp only [Bool.and_eq_true] at h
  obtain ⟨⟨⟨⟨⟨⟨⟨⟨h1, h2⟩, h3⟩, h4⟩, h5⟩, h6⟩, h7⟩, h8⟩, h9⟩ := h
  intro cell hcell
  simp only [recordCells, List.mem_cons, List.not_mem_nil, or_false] at hcell
  rcases hcell with rfl | rfl | rfl | rfl | rfl | rfl | rfl | rfl | rfl
    | rfl | rfl | rfl
  · exact (cleanStr_no_sep h1).2
  · exact (cleanStr_no_sep h2).2
  · exact (cleanStr_no_sep h3).2
  · exact (cleanStr_no_sep h4).2
  · exact (cleanStr_no_sep h5).2
  · exact (cleanStr_no_sep h6).2
  · exact (cleanStr_no_sep h7).2
  · exact (cleanStr_no_sep h8).2
  · exact (cleanStr_no_sep h9).2
  · exact intPrint_no_newline _
  · exact intPrint_no_newline _
  · exact intPrint_no_newline _

theorem csvLine_no_newline {cells : List (List Char)}
    (h : ∀ cell ∈ cells, '\n' ∉ cell) : '\n' ∉ csvLine cells :=
  intercalate_single_not_mem (by decide) cells h

theorem splitOn_csvLine {cells : List (List Char)} (hne : cells ≠ [])
    (h : ∀ cell ∈ cells, ',' ∉ cell) :
    (csvLine cells).splitOn ',' = cells :=
  List.splitOn_intercalate _ ',' h hne

theorem headerLine_no_newline : '\n' ∉ csvLine headerCells := by decide

theorem parseRecord_recordCells (r : Record) :
    parseRecord (recordCells r) = some r := by
  cases r
  simp only [parseRecord, recordCells, intParse_intPrint]

theorem parseLines_map (rows : List Record)
    (h : ∀ r ∈ rows, cleanRecord r = true) :
    parseLines (rows.map (fun r => csvLine (recordCells r))) = some rows := by
  induction rows with
  | nil => rfl
  | cons r t ih =>
    simp only [List.map_cons, parseLines]
    rw [splitOn_csvLine (by unfold recordCells; exact List.cons_ne_nil _ _)
        (recordCells_no_comma (h r (List.mem_cons_self _ _))),
      parseRecord_recordCells,
      ih (fun x hx => h x (List.mem_cons_of_mem _ hx))]

theorem splitOn_toCsv (rows : List Record)
    (h : ∀ r ∈ rows, cleanRecord r = true) :
    (toCsv rows).splitOn '\n' =
      csvLine headerCells :: rows.map (fun r => csvLine (recordCells r)) := by
  unfold toCsv
  refine List.splitOn_intercalate _ '\n' ?_ (by simp)
  intro l hl
  rcases List.mem_cons.mp hl with rfl | hml
  · exact headerLine_no_newline
  · obtain ⟨r, hr, rfl⟩ := List.mem_map.mp hml
    exact csvLine_no_newline (recordCells_no_newline (h r hr))

/-- The CSV round-trip: serializing rows whose string fields are free of
the separator characters and reloading the file reproduces the rows. -/
theorem csv_round_trip (rows : List Record)
    (h : ∀ r ∈ rows, cleanRecord r = true) :
    fromCsv (toCsv rows) = some rows := by
  unfold fromCsv
  rw [splitOn_toCsv rows h]
  show (if csvLine headerCells = csvLine headerCells
      then parseLines (rows.map (fun r => csvLine (recordCells r)))
      else none) = some rows
  rw [if_pos rfl]
  exact parseLines_map rows h

/-- C7: exporting a filtered subsequence to CSV and reloading that CSV
yields a dataset equal to the original subsequence, column-wise and
row-wise, whenever the rows' string fields are free of the CSV separator
characters (the model writes unquoted CSV). -/
theorem claim_csv_round_trip_export (rows : List Record)
    (h : ∀ r ∈ rows, cleanRecord r = true) :
    fromCsv (toCsv rows) = some rows :=
  csv_round_trip rows h

/-- Witness for C7 on a concrete one-row export. -/
theorem claim_csv_round_trip_export_witness :
    (∀ r ∈ ([exRec1] : List Record), cleanRecord r = true) ∧
    fromCsv (toCsv [exRec1]) = some [exRec1] :=
  ⟨by decide, claim_csv_round_trip_export [exRec1] (by decide)⟩

/-- C10: with no active filter, the export action writes exactly the
ten-row default view of the Data Preview page, which differs from the
serialization of the full sampled dataset whenever the dataset has more
than ten rows. -/
theorem claim_default_export_ten_rows (D : List Record)
    (h1 : 10 < D.length) (h2 : ∀ r ∈ D, cleanRecord r = true) :
    savedCsv D [] "All" = toCsv (D.take 10) ∧
    savedCsv D [] "All" ≠ toCsv D := by
  have he : filtered_df D [] "All" = D.take 10 := by
    unfold filtered_df
    rw [if_neg (by decide)]
  constructor
  · unfold savedCsv
    rw [he]
  · unfold savedCsv
    rw [he]
    intro heq
    have htake : ∀ r ∈ D.take 10, cleanRecord r = true :=
      fun r hr => h2 r (List.take_subset 10 D hr)
    have ra := csv_round_trip (D.take 10) htake
    have rb := csv_round_trip D h2
    rw [heq, rb] at ra
    have hD : D = D.take 10 := by
      injection ra
    have hlen := congrArg List.length hD
    rw [List.length_take] at hlen
    simp only [Nat.min_def] at hlen
    split at hlen <;> omega

/-- Witness for C10 on a concrete eleven-row dataset. -/
theorem claim_default_export_ten_rows_witness :
    (10 < (List.replicate 11 exRec1).length ∧
      ∀ r ∈ List.replicate 11 exRec1, cleanRecord r = true) ∧
    (savedCsv (List.replicate 11 exRec1) [] "All" =
        toCsv ((List.replicate 11 exRec1).take 10) ∧
      savedCsv (List.replicate 11 exRec1) [] "All" ≠
        toCsv (List.replicate 11 exRec1)) :=
  ⟨⟨by rw [List.length_replicate]; omega,
    fun r hr => by rw [List.eq_of_mem_replicate hr]; decide⟩,
   claim_default_export_ten_rows _ (by rw [List.length_replicate]; omega)
     (fun r hr => by rw [List.eq_of_mem_replicate hr]; decide)⟩
